import Mathlib

/-!
Verification of the `console` game-launcher repository: a shallow embedding of
the Discovery Engine (`game_manager.py`) and the Input Router (`controller.py`)
together with theorems settling the specification's claims about them.

Conventions of the embedding:
* Python strings are Lean `String`s; substring / prefix / suffix tests are
  implemented over `List Char` (`String.data`).
* `pathlib.Path` values are modelled as their list of components
  (`List String`, POSIX flavour: a leading component `"/"` denotes the root);
  `str(path)` is `pathStr`, `path.stem` is `stemOfName` of the last component.
* The filesystem facts a function consults (`stat().st_size`,
  `os.path.exists`, icon extraction, shortcut resolution, directory listings)
  are passed in explicitly as data, so every definition is executable.
* Machine integers do not overflow in the modelled code paths; scores and
  millisecond times are `Int`.
-/

/-- `Char` lowercasing as Python's `str.lower()` performs it on the ASCII
range (all strings the modelled code lowercases are ASCII). -/
def charLower (c : Char) : Char :=
  if 'A' ≤ c && c ≤ 'Z' then Char.ofNat (c.toNat + 32) else c

/-- Python's `s.lower()` (ASCII range). -/
def lowerStr (s : String) : String :=
  ⟨s.data.map charLower⟩

/-- Python's `s.split(sep)` for a one-character separator, over `List Char`. -/
def splitCharList (sep : Char) : List Char → List (List Char)
  | [] => [[]]
  | c :: t =>
    match splitCharList sep t with
    | [] => [[]]
    | h :: rest => if c = sep then [] :: h :: rest else (c :: h) :: rest

/-- Python's `s.split("/")`. -/
def splitSlash (s : String) : List String :=
  (splitCharList '/' s.data).map fun l => ⟨l⟩

/-- Python's `s.startswith(pre)`. -/
def startsWithB (s pre : String) : Bool :=
  pre.data.isPrefixOf s.data

/-- Python's `s.strip()` (whitespace trim at both ends). -/
def stripStr (s : String) : String :=
  ⟨(s.data.dropWhile (fun c => c.isWhitespace)).reverse.dropWhile (fun c => c.isWhitespace) |>.reverse⟩

/-- `listHasSub s pat`: `pat` occurs as a contiguous sublist of `s`
(Python's `pat in s` on strings). -/
def listHasSub (pat : List Char) : List Char → Bool
  | [] => pat.isEmpty
  | c :: t => pat.isPrefixOf (c :: t) || listHasSub pat t

/-- `hasSub s pat`: Python's `pat in s` for strings. -/
def hasSub (s pat : String) : Bool :=
  listHasSub pat.data s.data

/-- Python's `s.endswith (suffix)`. -/
def endsWithB (s suffix : String) : Bool :=
  suffix.data.isSuffixOf s.data

/-- Drop the last extension from a reversed character list: everything up to
and including the first `'.'`.  Helper for `stemOfName`. -/
def dropExtRev : List Char → Option (List Char)
  | [] => none
  | c :: t => if c = '.' then some t else dropExtRev t

/-- `Path(name).stem` for a file name that carries a normal `name.ext`
extension: the name without its final suffix (a name with no dot is returned
unchanged). -/
def stemOfName (s : String) : String :=
  match dropExtRev s.data.reverse with
  | some r => ⟨r.reverse⟩
  | none => s

/-- `str(path)` for a path given by its components, POSIX flavour: a leading
`"/"` component is the root and is not followed by an extra separator. -/
def pathStr : List String → String
  | [] => ""
  | root :: rest =>
    if root = "/" then "/" ++ String.intercalate "/" rest
    else String.intercalate "/" (root :: rest)

/-- The last component of a path components list (`path.name`). -/
def lastComponent (parts : List String) : String :=
  (parts.getLast?).getD ""

/-- `Path(s).stem` for a path held as a string: last `/`-separated component,
without its extension. -/
def stemOfPath (s : String) : String :=
  stemOfName ((splitSlash s).getLast?.getD "")

/-- `os.path.dirname` for POSIX-style path strings. -/
def dirnameStr (s : String) : String :=
  match (splitSlash s).dropLast with
  | [] => ""
  | ps => String.intercalate "/" ps

/-- `os.path.join a b` for POSIX-style path strings (b not absolute). -/
def joinPath (a b : String) : String :=
  if a = "" then b
  else if endsWithB a "/" then a ++ b
  else a ++ "/" ++ b

/-- One pass of Python's `while '  ' in name: name = name.replace('  ', ' ')`
loop: collapse every run of spaces to a single space (the fixed point the
loop reaches). -/
def collapseSpaces : List Char → List Char
  | [] => []
  | [c] => [c]
  | c₁ :: c₂ :: t =>
    if c₁ = ' ' && c₂ = ' ' then collapseSpaces (c₂ :: t)
    else c₁ :: collapseSpaces (c₂ :: t)

/-! ## Discovery Engine: scoring (`GameManager._score_executable`) -/

/-- `GameManager.IGNORED_PATTERNS` (verbatim, including the mixed-case
`'_CommonRedist'` entry, which the code compares against lowercased text). -/
def IGNORED_PATTERNS : List String :=
  ["unins", "uninst", "uninstall", "setup", "install", "config",
   "crash", "report", "update", "patch", "launcher", "bootstrap",
   "redist", "vcredist", "directx", "dotnet", "ue4prereq",
   "easyanticheat", "battleye", "dxsetup", "physx", "_CommonRedist",
   "support", "cleanup", "diagnostic", "repair", "verify"]

/-- `GameManager.GAME_PATTERNS`. -/
def GAME_PATTERNS : List String :=
  ["game", "play", "start", "launch", "run", "main", "win64", "win32"]

/-- A candidate executable as the scorer sees it: the full path components of
the `Path` object handed to `_score_executable`, plus the outcome of
`stat().st_size` (`none` models an `OSError`, which the code turns into no
size bonus). -/
structure ExeFile where
  parts : List String
  size : Option Nat
deriving Repr, DecidableEq

/-- A `for pattern in patterns: if pattern in name: score += d` loop. -/
def patternBonus (patterns : List String) (d : Int) (name : String) : Int :=
  patterns.foldl (fun score p => if hasSub name p then score + d else score) 0

/-- The file-size tier bonus of `_score_executable` (`+30` above 50 MB,
`+20` above 10 MB, `+10` above 1 MB; an `OSError` from `stat` yields 0). -/
def sizeBonus : Option Nat → Int
  | some size =>
    if size > 50 * 1024 * 1024 then 30
    else if size > 10 * 1024 * 1024 then 20
    else if size > 1 * 1024 * 1024 then 10
    else 0
  | none => 0

/-- `GameManager._score_executable(exe_path, folder_name)`.  Note that the
source computes `rel_parts = exe_path.parts` — the components of the *full*
path object it was given, not of a path relative to the game folder — and
that the `-100` penalty loop tests only `name_lower` (the lowercased stem),
never the full path. -/
def score_executable (exe : ExeFile) (folder_name : String) : Int :=
  let name_lower := lowerStr (stemOfName (lastComponent exe.parts))
  let folder_lower := lowerStr folder_name
  let matchBonus : Int :=
    if hasSub folder_lower name_lower || hasSub name_lower folder_lower then 50 else 0
  let rootBonus : Int := if exe.parts.length ≤ 2 then 20 else 0
  let path_lower := lowerStr (pathStr exe.parts)
  let binBonus : Int :=
    if hasSub path_lower "bin" || hasSub path_lower "binaries" then 15 else 0
  let gameBonus := patternBonus GAME_PATTERNS 10 name_lower
  let szBonus := sizeBonus exe.size
  let penalty := patternBonus IGNORED_PATTERNS (-100) name_lower
  matchBonus + rootBonus + binBonus + gameBonus + szBonus + penalty

/-- The lowercased stem (`name_lower`) of a candidate. -/
def nameLowerOf (exe : ExeFile) : String :=
  lowerStr (stemOfName (lastComponent exe.parts))

/-- How many entries of `IGNORED_PATTERNS` occur in the candidate's
lowercased stem — each such entry costs `-100` in `_score_executable`. -/
def negTokenCountName (exe : ExeFile) : Nat :=
  IGNORED_PATTERNS.countP (fun p => hasSub (nameLowerOf exe) p)

/-- The folder-name bonus condition of `_score_executable`
(`name_lower in folder_lower or folder_lower in name_lower`). -/
def nameMatchesFolder (exe : ExeFile) (folder_name : String) : Bool :=
  hasSub (lowerStr folder_name) (nameLowerOf exe) || hasSub (nameLowerOf exe) (lowerStr folder_name)

/-- `GameManager._should_ignore(path)`: an `IGNORED_PATTERNS` entry in the
lowercased stem *or* the lowercased full path string excludes the file. -/
def should_ignore (path : String) : Bool :=
  IGNORED_PATTERNS.any (fun p =>
    hasSub (lowerStr (stemOfPath path)) p || hasSub (lowerStr path) p)

/-! ## Discovery Engine: game records and scanning (`GameManager.scan_games`) -/

/-- The suffix list of `GameManager._clean_game_name`. -/
def NAME_SUFFIXES : List String :=
  ["-Win64-Shipping", "-Win32-Shipping", "_x64", "_x86", "-x64", "-x86",
   "_64", "_32", " x64", " x86", "Win64", "Win32"]

/-- `GameManager._clean_game_name(name)`: strip the platform suffixes (each
at most once, in list order, case-insensitively), turn `_` and `-` into
spaces, collapse space runs, trim. -/
def clean_game_name (name : String) : String :=
  let n := NAME_SUFFIXES.foldl
    (fun n suffix =>
      if endsWithB (lowerStr n) (lowerStr suffix) then n.dropRight suffix.length else n)
    name
  let n : String := ⟨n.data.map (fun c => if c = '_' || c = '-' then ' ' else c)⟩
  stripStr ⟨collapseSpaces n.data⟩

/-- The ambient effects `Game.__post_init__` and the scanner consult:
`hashlib.md5(path).hexdigest()[:12]`, `os.path.exists`, and
`GameManager._extract_icon` (whose result depends on win32/PIL availability
and the icon cache on disk). -/
structure Env where
  md5_12 : String → String
  path_exists : String → Bool
  extract_icon : String → Option String

/-- The image extensions `Game._detect_images` probes. -/
def IMAGE_EXTENSIONS : List String :=
  [".png", ".jpg", ".jpeg", ".webp", ".bmp", ".avif", ".heic", ".heif"]

/-- First existing `<base><ext>` file inside `folder`, per
`Game._detect_images`'s loop over `IMAGE_EXTENSIONS`. -/
def firstImage (env : Env) (folder base : String) : Option String :=
  (IMAGE_EXTENSIONS.map (fun ext => joinPath folder (base ++ ext))).find? env.path_exists

/-- `Game._detect_images` for a record whose `path` field is the string
`path`: overwrite `poster_path` / `background_path` only when a matching
file exists under `<dirname path>/images_`. -/
def detect_images (env : Env) (path : String) (poster background : Option String) :
    Option String × Option String :=
  if path = "" then (poster, background)
  else
    let images_folder := joinPath (dirnameStr path) "images_"
    if env.path_exists images_folder then
      ((firstImage env images_folder "poster").elim poster some,
       (firstImage env images_folder "background").elim background some)
    else (poster, background)

/-- A `Game` as the scanner produces it (`game_manager.Game` with the field
values `_create_game_entry` and `__post_init__` give it). -/
structure GameRec where
  name : String
  path : String
  icon_path : Option String
  poster_path : Option String
  background_path : Option String
  folder_source : String
  last_played : Option String
  play_count : Nat
  is_shortcut : Bool
  hash_id : String
deriving Repr, DecidableEq

/-- `GameManager._create_game_entry` followed by `Game.__post_init__`: the
name comes from `folder_name` when given, else from the executable's stem;
`hash_id` is computed from the path (the constructor default `""` is falsy);
poster/background come from `_detect_images`.  In the embedding nothing in
this construction can raise, so the source's `Optional[Game]` is always
`some`; the caller's `if game:` test is therefore always true. -/
def create_game_entry (env : Env) (exe_path source_folder : String)
    (folder_name : Option String) (is_shortcut : Bool) : GameRec :=
  let name := clean_game_name (match folder_name with
    | some f => f
    | none => stemOfPath exe_path)
  let (poster, background) := detect_images env exe_path none none
  { name := name
    path := exe_path
    icon_path := env.extract_icon exe_path
    poster_path := poster
    background_path := background
    folder_source := source_folder
    last_played := none
    play_count := 0
    is_shortcut := is_shortcut
    hash_id := env.md5_12 exe_path }

/-- One executable found by `game_folder.rglob("*.exe")`: its path components
relative to the game folder (last component is the file name) and its
`stat` outcome. -/
structure RelExe where
  rel : List String
  size : Option Nat
deriving Repr, DecidableEq

/-- One immediate subdirectory of a root folder, as `_find_game_in_folder`
sees it: its full path components, whether `rglob` raises
`PermissionError`, and the executables `rglob` yields (in order). -/
structure SubdirFS where
  parts : List String
  permErr : Bool
  exes : List RelExe
deriving Repr

/-- One configured root folder with everything `_scan_folder` enumerates:
the folder string, `os.path.exists`, the resolution result of each `*.lnk`
(`none` when `_resolve_shortcut` returns `None`), the subdirectories, and
the names of the loose `*.exe` files directly inside it. -/
structure RootFS where
  path : String
  exist : Bool
  lnkTargets : List (Option String)
  subdirs : List SubdirFS
  loose : List String
deriving Repr

/-- The full `Path` of an executable inside a game subdirectory. -/
def fullExePath (sub : SubdirFS) (e : RelExe) : String :=
  pathStr (sub.parts ++ e.rel)

/-- `GameManager._find_game_in_folder`: depth-filter (≤ 3 relative
components) and ignore-filter the candidates, score them against the
subdirectory's name, pick the highest-scoring one (the source stable-sorts
descending by score and takes the head, i.e. the *first* maximum), and claim
it unless already claimed.  Returns the new game (if any) and the updated
`found_paths`. -/
def find_game_in_folder (env : Env) (sub : SubdirFS) (source_folder : String)
    (found : List String) : Option GameRec × List String :=
  if sub.permErr then (none, found)
  else
    let exe_files := sub.exes.filter
      (fun e => e.rel.length ≤ 3 && !(should_ignore (fullExePath sub e)))
    match exe_files with
    | [] => (none, found)
    | e0 :: rest =>
      let folderName := lastComponent sub.parts
      let best := (e0 :: rest).foldl
        (fun b e =>
          if score_executable ⟨sub.parts ++ e.rel, e.size⟩ folderName >
             score_executable ⟨sub.parts ++ b.rel, b.size⟩ folderName
          then e else b) e0
      let exe_path := fullExePath sub best
      if exe_path ∈ found then (none, found)
      else
        (some (create_game_entry env exe_path source_folder
                 (some (lastComponent sub.parts)) false),
         exe_path :: found)

/-- The shortcut phase of `_scan_folder`: each resolved `.lnk` target that
ends in `.exe`, is not yet claimed and is not ignored becomes a game. -/
def scan_lnks (env : Env) (folder : String) :
    List (Option String) → List String → List GameRec × List String
  | [], found => ([], found)
  | none :: rest, found => scan_lnks env folder rest found
  | some target :: rest, found =>
    if endsWithB (lowerStr target) ".exe" && !(target ∈ found : Bool) then
      if !should_ignore target then
        let r := scan_lnks env folder rest (target :: found)
        (create_game_entry env target folder none true :: r.1, r.2)
      else scan_lnks env folder rest found
    else scan_lnks env folder rest found

/-- The subdirectory phase of `_scan_folder`: every non-hidden immediate
subdirectory contributes at most one game via `_find_game_in_folder`. -/
def scan_subdirs (env : Env) (source_folder : String) :
    List SubdirFS → List String → List GameRec × List String
  | [], found => ([], found)
  | sub :: rest, found =>
    if startsWithB (lastComponent sub.parts) "." then
      scan_subdirs env source_folder rest found
    else
      let r := find_game_in_folder env sub source_folder found
      match r.1 with
      | some g =>
        let r' := scan_subdirs env source_folder rest r.2
        (g :: r'.1, r'.2)
      | none => scan_subdirs env source_folder rest r.2

/-- The loose-executable phase of `_scan_folder`: unclaimed, unignored
`*.exe` files directly inside the root each become a game. -/
def scan_loose (env : Env) (folder : String) :
    List String → List String → List GameRec × List String
  | [], found => ([], found)
  | name :: rest, found =>
    if !(joinPath folder name ∈ found : Bool) && !should_ignore (joinPath folder name) then
      let r := scan_loose env folder rest (joinPath folder name :: found)
      (create_game_entry env (joinPath folder name) folder none false :: r.1, r.2)
    else scan_loose env folder rest found

/-- `GameManager._scan_folder`: shortcuts, then subdirectories, then loose
executables, all threading `found_paths`. -/
def scan_folder (env : Env) (root : RootFS) (found : List String) :
    List GameRec × List String :=
  let r₁ := scan_lnks env root.path root.lnkTargets found
  let r₂ := scan_subdirs env root.path root.subdirs r₁.2
  let r₃ := scan_loose env root.path root.loose r₂.2
  (r₁.1 ++ r₂.1 ++ r₃.1, r₃.2)

/-- The folder loop of `GameManager.scan_games`: skip missing roots, extend
`self.games` with each existing root's findings. -/
def scan_games_go (env : Env) : List RootFS → List String → List GameRec
  | [], _ => []
  | root :: rest, found =>
    if root.exist then
      (scan_folder env root found).1 ++ scan_games_go env rest (scan_folder env root found).2
    else scan_games_go env rest found

/-- Insertion into a sorted list by a boolean `le`; helper for the stable
sort modelling Python's `list.sort(key=..)`. -/
def insertLe {α : Type} (le : α → α → Bool) (a : α) : List α → List α
  | [] => [a]
  | b :: t => if le a b then a :: b :: t else b :: insertLe le a t

/-- Stable insertion sort (placing an earlier element before later equal
ones, as Python's stable `list.sort` does). -/
def stableSort {α : Type} (le : α → α → Bool) : List α → List α
  | [] => []
  | a :: t => insertLe le a (stableSort le t)

/-- Boolean string `≤` (code-point lexicographic, as Python compares str). -/
def strLeB (a b : String) : Bool :=
  !(decide (b < a))

/-- `GameManager._sort_games` on the scanned list: four recognised modes,
any other `sorting` value leaves the order unchanged. -/
def sort_games (sorting : String) (games : List GameRec) : List GameRec :=
  if sorting = "alphabetical" then
    stableSort (fun a b => strLeB (lowerStr a.name) (lowerStr b.name)) games
  else if sorting = "recent" then
    stableSort (fun a b => strLeB (b.last_played.getD "") (a.last_played.getD "")) games
  else if sorting = "folder" then
    stableSort (fun a b =>
      decide (a.folder_source < b.folder_source) ||
      (a.folder_source = b.folder_source && strLeB (lowerStr a.name) (lowerStr b.name))) games
  else if sorting = "play_count" then
    stableSort (fun a b => b.play_count ≤ a.play_count) games
  else games

/-- `GameManager.scan_games(folders)`: fresh `found_paths`, scan every
existing root, then `_sort_games` per the configured mode (the progress
callbacks and `save_cache` side effects do not touch the list). -/
def scan_games (env : Env) (sorting : String) (roots : List RootFS) : List GameRec :=
  sort_games sorting (scan_games_go env roots [])

/-! ## Discovery Engine: cache loading (`GameManager.load_cache`, `Game.from_dict`) -/

/-- JSON values as `json.load` produces them (numbers restricted to the
integers, which is all the cache format uses). -/
inductive JVal where
  | jnull : JVal
  | jbool : Bool → JVal
  | jnum : Int → JVal
  | jstr : String → JVal
  | jarr : List JVal → JVal
  | jobj : List (String × JVal) → JVal
deriving Repr

/-- The Python exceptions the modelled code can raise or catch.
`load_cache` catches exactly `JSONDecodeError`, `KeyError`, `TypeError`. -/
inductive PyExc where
  | osErr : PyExc
  | jsonDecodeErr : PyExc
  | keyErr : PyExc
  | typeErr : PyExc
  | attrErr : PyExc
deriving Repr, DecidableEq

/-- Python truthiness of a JSON-decoded value. -/
def truthy : JVal → Bool
  | .jnull => false
  | .jbool b => b
  | .jnum n => n ≠ 0
  | .jstr s => s ≠ ""
  | .jarr xs => !xs.isEmpty
  | .jobj kvs => !kvs.isEmpty

/-- A `game_manager.Game` dataclass instance holding JSON-decoded values.
Python dataclasses do not check field types, so every field is a `JVal`;
the defaults are those of the dataclass declaration. -/
structure GameObj where
  name : JVal
  path : JVal
  icon_path : JVal
  poster_path : JVal
  background_path : JVal
  folder_source : JVal
  last_played : JVal
  play_count : JVal
  is_shortcut : JVal
  hash_id : JVal
deriving Repr

/-- The keyword names `Game(**data)` accepts. -/
def GAME_FIELDS : List String :=
  ["name", "path", "icon_path", "poster_path", "background_path",
   "folder_source", "last_played", "play_count", "is_shortcut", "hash_id"]

/-- `_detect_images` acting on untyped poster/background fields (overwrite
only when a file is found). -/
def detect_images_j (env : Env) (path : String) (poster background : JVal) : JVal × JVal :=
  let images_folder := joinPath (dirnameStr path) "images_"
  if env.path_exists images_folder then
    ((firstImage env images_folder "poster").elim poster .jstr,
     (firstImage env images_folder "background").elim background .jstr)
  else (poster, background)

/-- `Game.__post_init__` on an untyped instance.  `self.path.encode()` on a
non-string raises `AttributeError` (not in `load_cache`'s catch tuple);
`os.path.dirname` on a truthy non-string raises `TypeError` (which is in
the catch tuple). -/
def post_init_j (env : Env) (g : GameObj) : Except PyExc GameObj := do
  let g₁ ←
    if truthy g.hash_id then pure g
    else
      match g.path with
      | .jstr s => pure { g with hash_id := .jstr (env.md5_12 s) }
      | _ => throw .attrErr
  if truthy g₁.path then
    match g₁.path with
    | .jstr s =>
      let (poster, background) := detect_images_j env s g₁.poster_path g₁.background_path
      pure { g₁ with poster_path := poster, background_path := background }
    | _ => throw .typeErr
  else pure g₁

/-- `Game.from_dict(data)`, i.e. `Game(**data)` plus `__post_init__`:
`TypeError` on a non-mapping, on an unexpected keyword, or on a missing
required field (`name`, `path`); otherwise fields come from the dict with
the dataclass defaults for the absent ones. -/
def from_dict (env : Env) (v : JVal) : Except PyExc GameObj :=
  match v with
  | .jobj kvs =>
    if kvs.any (fun kv => !GAME_FIELDS.contains kv.1) then throw .typeErr
    else if !(kvs.any (fun kv => kv.1 == "name")) || !(kvs.any (fun kv => kv.1 == "path")) then
      throw .typeErr
    else
      post_init_j env
        { name := (kvs.lookup "name").getD .jnull
          path := (kvs.lookup "path").getD .jnull
          icon_path := (kvs.lookup "icon_path").getD .jnull
          poster_path := (kvs.lookup "poster_path").getD .jnull
          background_path := (kvs.lookup "background_path").getD .jnull
          folder_source := (kvs.lookup "folder_source").getD (.jstr "")
          last_played := (kvs.lookup "last_played").getD .jnull
          play_count := (kvs.lookup "play_count").getD (.jnum 0)
          is_shortcut := (kvs.lookup "is_shortcut").getD (.jbool false)
          hash_id := (kvs.lookup "hash_id").getD (.jstr "") }
  | _ => throw .typeErr

/-- Python iteration over `data.get('games', [])`: lists yield their
elements, strings their characters, dicts their keys; anything else raises
`TypeError` (not iterable). -/
def iterElems : JVal → Except PyExc (List JVal)
  | .jarr xs => .ok xs
  | .jstr s => .ok (s.data.map (fun c => .jstr ⟨[c]⟩))
  | .jobj kvs => .ok (kvs.map (fun kv => .jstr kv.1))
  | _ => .error .typeErr

/-- The state of the cache file as `load_cache` encounters it: absent,
present but raising an I/O error on open/read, readable but not valid JSON
(`json.load` raises `JSONDecodeError`), or readable with a parsed value. -/
inductive CacheFile where
  | absent : CacheFile
  | unreadable : CacheFile
  | malformed : CacheFile
  | parsed : JVal → CacheFile

/-- `GameManager.load_cache()`.  `.ok (some gs)` models `return True` with
`self.games = gs`; `.ok none` models `return False`; `.error e` models an
exception escaping the method.  The `try` catches exactly
`(json.JSONDecodeError, KeyError, TypeError)`; an `OSError` from `open` /
`read` and an `AttributeError` from `data.get` on a non-dict (or from
`path.encode()` on a non-string) propagate. -/
def load_cache (env : Env) (file : CacheFile) : Except PyExc (Option (List GameObj)) :=
  match file with
  | .absent => .ok none
  | .unreadable => .error .osErr
  | .malformed => .ok none
  | .parsed v =>
    match v with
    | .jobj kvs =>
      match iterElems ((kvs.lookup "games").getD (.jarr [])) >>=
            (fun elems => elems.mapM (from_dict env)) with
      | .ok gs => .ok (some gs)
      | .error .jsonDecodeErr => .ok none
      | .error .keyErr => .ok none
      | .error .typeErr => .ok none
      | .error e => .error e
    | _ => .error .attrErr

/-! ## Input Router (`controller.InputHandler`) -/

/-- `controller.InputAction`. -/
inductive InputAction where
  | UP | DOWN | LEFT | RIGHT | CONFIRM | BACK | OPTIONS | RESCAN | NONE
deriving Repr, DecidableEq

/-- The Bluetooth touchpad button index (`PS_BUTTON_TOUCHPAD_BT`). -/
def PS_BUTTON_TOUCHPAD_BT : Nat := 13

/-- USB button indices (`PS_BUTTON_*_USB`). -/
def PS_BUTTON_CROSS_USB : Nat := 0
def PS_BUTTON_CIRCLE_USB : Nat := 1
def PS_BUTTON_TRIANGLE_USB : Nat := 3
def PS_BUTTON_OPTIONS_USB : Nat := 9

/-- Axis indices for the left stick (`PS_AXIS_LEFT_X/Y`). -/
def PS_AXIS_LEFT_X : Nat := 0
def PS_AXIS_LEFT_Y : Nat := 1

/-- The keyboard keys `_read_raw_input` polls (`pygame.key.get_pressed()`
restricted to the keys the code consults). -/
structure Keys where
  k_up : Bool
  k_w : Bool
  k_down : Bool
  k_s : Bool
  k_left : Bool
  k_a : Bool
  k_right : Bool
  k_d : Bool
  k_return : Bool
  k_space : Bool
  k_escape : Bool
  k_backspace : Bool
  k_tab : Bool
  k_o : Bool
  k_r : Bool
deriving Repr, DecidableEq

/-- Some keyboard key mapped to some action is down. -/
def anyKeyDown (k : Keys) : Bool :=
  k.k_up || k.k_w || k.k_down || k.k_s || k.k_left || k.k_a || k.k_right || k.k_d ||
  k.k_return || k.k_space || k.k_escape || k.k_backspace || k.k_tab || k.k_o || k.k_r

/-- A connected joystick as the router queries it.  Axis values are
rationals (the deadzone comparisons in the source are pure order
comparisons, so exact rationals model them faithfully for every claim
settled here).  `fail` models a `pygame.error` raised by a hardware
query. -/
structure Joy where
  numhats : Nat
  hat0x : Int
  hat0y : Int
  numaxes : Nat
  axis : Nat → ℚ
  numbuttons : Nat
  button : Nat → Bool
  fail : Bool

/-- The handler fields `_read_raw_input` reads: the configured deadzone and
the active button mapping (`PS_BUTTON_CROSS` etc. after
`_detect_button_mapping`). -/
structure Handler where
  deadzone : ℚ
  btnCross : Nat
  btnCircle : Nat
  btnOptions : Nat
  btnTriangle : Nat

/-- `InputHandler._is_button_pressed(button_id)`: guard on the reported
button count, catch `pygame.error`, return `False` in every failure case. -/
def is_button_pressed (joy : Option Joy) (button_id : Nat) : Bool :=
  match joy with
  | none => false
  | some j =>
    if j.fail then false
    else if button_id < j.numbuttons then j.button button_id
    else false

/-- The controller section of `_read_raw_input` (reached only when no
keyboard key is down): D-pad hat first, then the left stick against the
deadzone, then the discrete buttons in confirm/back/options/rescan order. -/
def controllerDecode (H : Handler) (j : Joy) : InputAction :=
  let hatAction : Option InputAction :=
    if j.numhats > 0 then
      if j.hat0y = 1 then some .UP
      else if j.hat0y = -1 then some .DOWN
      else if j.hat0x = -1 then some .LEFT
      else if j.hat0x = 1 then some .RIGHT
      else none
    else none
  match hatAction with
  | some a => a
  | none =>
    let axisAction : Option InputAction :=
      if j.numaxes ≥ 2 then
        let axis_x := j.axis PS_AXIS_LEFT_X
        let axis_y := j.axis PS_AXIS_LEFT_Y
        if axis_y < -H.deadzone then some .UP
        else if axis_y > H.deadzone then some .DOWN
        else if axis_x < -H.deadzone then some .LEFT
        else if axis_x > H.deadzone then some .RIGHT
        else none
      else none
    match axisAction with
    | some a => a
    | none =>
      if j.numbuttons > 0 then
        if is_button_pressed (some j) H.btnCross then .CONFIRM
        else if is_button_pressed (some j) H.btnCircle then .BACK
        else if is_button_pressed (some j) H.btnOptions then .OPTIONS
        else if is_button_pressed (some j) H.btnTriangle then .RESCAN
        else .NONE
      else .NONE

/-- `InputHandler._read_raw_input()`: the keyboard is decoded first and its
first pressed key (in source order) returns immediately; only with no
keyboard key down is the controller consulted (`if self.joystick and
self.state.connected`), and a `pygame.error` inside that block falls
through to `return InputAction.NONE` (the fallback is split into
`joystickSection` for proof convenience; together the two definitions are
the method body). -/
def joystickSection (H : Handler) (joy : Option Joy) (connected : Bool) : InputAction :=
  match joy with
  | some j => if connected then (if j.fail then .NONE else controllerDecode H j) else .NONE
  | none => .NONE

def read_raw_input (H : Handler) (keys : Keys) (joy : Option Joy) (connected : Bool) :
    InputAction :=
  if keys.k_up || keys.k_w then .UP
  else if keys.k_down || keys.k_s then .DOWN
  else if keys.k_left || keys.k_a then .LEFT
  else if keys.k_right || keys.k_d then .RIGHT
  else if keys.k_return || keys.k_space then .CONFIRM
  else if keys.k_escape || keys.k_backspace then .BACK
  else if keys.k_tab || keys.k_o then .OPTIONS
  else if keys.k_r then .RESCAN
  else joystickSection H joy connected

/-- The repeat-tracking fields of `InputHandler` (`_last_action`,
`_action_start_time`, `_last_repeat_time`, `_action_triggered`). -/
structure RepeatState where
  last_action : InputAction
  action_start_time : Int
  last_repeat_time : Int
  action_triggered : Bool
deriving Repr, DecidableEq

/-- The state at `__init__`. -/
def initRepeatState : RepeatState :=
  ⟨.NONE, 0, 0, false⟩

/-- The repeat logic of `InputHandler.get_input()` as a transition on the
repeat-tracking state: given this poll's raw-decoded `action` and the
current tick count, return the emitted action and the new state. -/
def get_input_step (repeat_delay repeat_interval : Int) (action : InputAction)
    (current_time : Int) (s : RepeatState) : InputAction × RepeatState :=
  if action ≠ InputAction.NONE then
    if action ≠ s.last_action then
      (action, ⟨action, current_time, current_time, true⟩)
    else if !s.action_triggered then
      (action, { s with action_triggered := true })
    else
      let time_held := current_time - s.action_start_time
      if time_held ≥ repeat_delay then
        let time_since_repeat := current_time - s.last_repeat_time
        if time_since_repeat ≥ repeat_interval then
          (action, { s with last_repeat_time := current_time })
        else (.NONE, s)
      else (.NONE, s)
  else
    (.NONE, { s with last_action := .NONE, action_triggered := false })

/-- The repeat state after `k` polls of a constant raw action `a`, polled at
`t = 16·k` ms with the default `repeat_delay = 500`,
`repeat_interval = 150` (the schedule of the spec's repeat-timing
property). -/
def heldState (a : InputAction) : Nat → RepeatState
  | 0 => initRepeatState
  | k + 1 => (get_input_step 500 150 a (16 * (k : Int)) (heldState a k)).2

/-- The action `get_input` emits at poll `k` of that schedule. -/
def heldOut (a : InputAction) (k : Nat) : InputAction :=
  (get_input_step 500 150 a (16 * (k : Int)) (heldState a k)).1

/-- The effect of `InputHandler.wait_for_release()` on the repeat-tracking
state: the polling loop performs no writes to it, and on exit the method
clears `_last_action` and `_action_triggered` (the two time fields are
left as they were). -/
def wait_for_release_reset (s : RepeatState) : RepeatState :=
  { s with last_action := .NONE, action_triggered := false }

/-! ## Helper lemmas -/

/-- A `patternBonus` fold is `d` times the number of matching patterns. -/
theorem patternBonus_foldl_eq (name : String) (d : Int) (ps : List String) (acc : Int) :
    ps.foldl (fun score p => if hasSub name p then score + d else score) acc
      = acc + d * (ps.countP (fun p => hasSub name p) : Int) := by
  induction ps generalizing acc with
  | nil => simp
  | cons p t ih =>
    simp only [List.foldl_cons, List.countP_cons, ih]
    by_cases h : hasSub name p = true
    · simp [h]; ring
    · simp [h]

/-- `patternBonus` counts matches. -/
theorem patternBonus_eq (ps : List String) (d : Int) (name : String) :
    patternBonus ps d name = d * (ps.countP (fun p => hasSub name p) : Int) := by
  unfold patternBonus
  rw [patternBonus_foldl_eq]
  ring

/-- The size bonus is between 0 and 30. -/
theorem sizeBonus_bounds (o : Option Nat) : 0 ≤ sizeBonus o ∧ sizeBonus o ≤ 30 := by
  cases o with
  | none => simp [sizeBonus]
  | some s => simp only [sizeBonus]; split_ifs <;> omega

/-- Upper bound on `_score_executable`: all positive bonuses together reach
at most `50 + 20 + 15 + 80 + 30 = 195`, and each negative token in the base
name subtracts 100. -/
theorem score_executable_upper (exe : ExeFile) (folder : String) :
    score_executable exe folder ≤ 195 - 100 * (negTokenCountName exe : Int) := by
  unfold negTokenCountName nameLowerOf
  simp only [score_executable]
  rw [patternBonus_eq, patternBonus_eq]
  have hg : (GAME_PATTERNS.countP
      (fun p => hasSub (lowerStr (stemOfName (lastComponent exe.parts))) p)) ≤ 8 := by
    have h := List.countP_le_length
      (l := GAME_PATTERNS)
      (p := fun p => hasSub (lowerStr (stemOfName (lastComponent exe.parts))) p)
    simpa using h
  have hs := sizeBonus_bounds exe.size
  split_ifs <;> omega

/-- Lower bound on `_score_executable` for a candidate with no negative
tokens, a folder-name match, and the mid-range size tier. -/
theorem score_executable_midrange_lower (exe : ExeFile) (folder : String) (sz : Nat)
    (hclean : negTokenCountName exe = 0)
    (hmatch : nameMatchesFolder exe folder = true)
    (hsz : exe.size = some sz)
    (hlo : 10 * 1024 * 1024 < sz) (hhi : sz ≤ 50 * 1024 * 1024) :
    70 ≤ score_executable exe folder := by
  unfold nameMatchesFolder nameLowerOf at hmatch
  unfold negTokenCountName nameLowerOf at hclean
  simp only [score_executable]
  rw [patternBonus_eq, patternBonus_eq, hclean, hsz]
  have hmid : sizeBonus (some sz) = 20 := by
    simp only [sizeBonus]
    rw [if_neg (by omega), if_pos (by omega)]
  rw [hmid, if_pos hmatch]
  have hg : 0 ≤ (GAME_PATTERNS.countP
      (fun p => hasSub (lowerStr (stemOfName (lastComponent exe.parts))) p) : Int) := by
    positivity
  split_ifs <;> omega

/-! ## Claim C1 — negative-token dominance in scoring -/

/-- Claim C1 counterexample: an executable whose base name holds exactly one
negative token (`crash`) but all eight positive patterns, a `bin` substring
and the top size tier scores 75, while a clean folder-matching mid-size
candidate in the same folder scores 70 — the single negative match does
*not* rank strictly below the clean candidate. -/
theorem C1_counterexample :
    1 ≤ negTokenCountName
        ⟨["/", "g", "bingameplaystartlaunchrunmainwin64win32crash.exe"],
         some (51 * 1024 * 1024)⟩ ∧
    negTokenCountName ⟨["/", "g", "ingam.exe"], some (11 * 1024 * 1024)⟩ = 0 ∧
    nameMatchesFolder ⟨["/", "g", "ingam.exe"], some (11 * 1024 * 1024)⟩
        "bingameplaystartlaunchrunmainwin64win32crash" = true ∧
    10 * 1024 * 1024 < 11 * 1024 * 1024 ∧ 11 * 1024 * 1024 ≤ 50 * 1024 * 1024 ∧
    ¬ (score_executable
          ⟨["/", "g", "bingameplaystartlaunchrunmainwin64win32crash.exe"],
           some (51 * 1024 * 1024)⟩
          "bingameplaystartlaunchrunmainwin64win32crash"
        < score_executable ⟨["/", "g", "ingam.exe"], some (11 * 1024 * 1024)⟩
          "bingameplaystartlaunchrunmainwin64win32crash") := by
  refine ⟨by decide, by decide, by decide, by decide, by decide, by decide⟩

/-- Claim C1 (amended): a candidate whose base name matches at least *two*
negative-signal tokens always scores strictly below a clean candidate with
a folder-name match and the mid-range size tier; one negative token alone
need not dominate, since the positive bonuses can reach 195. -/
theorem C1_amended_two_negative_tokens_dominate
    (e₁ e₂ : ExeFile) (folder : String) (sz : Nat)
    (h₁ : 2 ≤ negTokenCountName e₁)
    (h₂ : negTokenCountName e₂ = 0)
    (h₃ : nameMatchesFolder e₂ folder = true)
    (h₄ : e₂.size = some sz)
    (h₅ : 10 * 1024 * 1024 < sz) (h₆ : sz ≤ 50 * 1024 * 1024) :
    score_executable e₁ folder < score_executable e₂ folder := by
  have hu := score_executable_upper e₁ folder
  have hl := score_executable_midrange_lower e₂ folder sz h₂ h₃ h₄ h₅ h₆
  omega

/-- Claim C1 amended, witness: `setupuninstall.exe` (five negative tokens)
scores below the clean mid-size `ingam.exe` inside folder `ingamfolder`. -/
theorem C1_amended_witness :
    score_executable ⟨["/", "g", "setupuninstall.exe"], none⟩ "ingamfolder"
      < score_executable ⟨["/", "g", "ingam.exe"], some (11 * 1024 * 1024)⟩ "ingamfolder" :=
  C1_amended_two_negative_tokens_dominate
    ⟨["/", "g", "setupuninstall.exe"], none⟩
    ⟨["/", "g", "ingam.exe"], some (11 * 1024 * 1024)⟩
    "ingamfolder" (11 * 1024 * 1024)
    (by decide) (by decide) (by decide) rfl (by decide) (by decide)

/-! ## Claim C3 — the `+20` location bonus -/

/-- Claim C3: the source awards the `+20` "root" bonus from the component
count of the *absolute* path (`rel_parts = exe_path.parts`), not from the
depth relative to the game subdirectory.  An executable directly inside the
game subdirectory `/games/Foo` (relative depth 1) gets no `+20` — its score
is 0, not 20 — while the same file name as a bare one-component path would
get the bonus.  This contradicts both the spec and the source's own
`rel_parts` naming and "root folder" comment. -/
theorem C3_location_bonus_uses_absolute_parts :
    score_executable ⟨["/", "games", "Foo", "zzz.exe"], none⟩ "Foo" = 0 ∧
    score_executable ⟨["zzz.exe"], none⟩ "Foo" = 20 := by
  exact ⟨by decide, by decide⟩

/-! ## Claim C7 — which part of the path the `-100` penalty inspects -/

/-- Claim C7 counterexample: `/redist/clean.exe` has the negative token
`redist` in its full path but a clean base name; `_score_executable` gives
it score 0 — no `-100` penalty is applied for the path match. -/
theorem C7_counterexample :
    hasSub (lowerStr (pathStr ["/", "redist", "clean.exe"])) "redist" = true ∧
    negTokenCountName ⟨["/", "redist", "clean.exe"], none⟩ = 0 ∧
    score_executable ⟨["/", "redist", "clean.exe"], none⟩ "other" = 0 := by
  refine ⟨by decide, by decide, by decide⟩

/-- The non-penalty part of `_score_executable` (all bonuses, no
`IGNORED_PATTERNS` penalty); named per the spec's decomposition of the
scoring function, for comparison with the source's `score_executable`. -/
def score_positive (exe : ExeFile) (folder_name : String) : Int :=
  let name_lower := lowerStr (stemOfName (lastComponent exe.parts))
  let folder_lower := lowerStr folder_name
  let matchBonus : Int :=
    if hasSub folder_lower name_lower || hasSub name_lower folder_lower then 50 else 0
  let rootBonus : Int := if exe.parts.length ≤ 2 then 20 else 0
  let path_lower := lowerStr (pathStr exe.parts)
  let binBonus : Int :=
    if hasSub path_lower "bin" || hasSub path_lower "binaries" then 15 else 0
  let gameBonus := patternBonus GAME_PATTERNS 10 name_lower
  let szBonus := sizeBonus exe.size
  matchBonus + rootBonus + binBonus + gameBonus + szBonus

/-- Claim C7 (amended): the `-100` penalty is applied once per negative
token occurring in the lowercased *base name* only; the full path is never
consulted by the scoring penalty (it is consulted only by the separate
hard-exclusion filter `_should_ignore`). -/
theorem C7_amended_penalty_counts_base_name_only (exe : ExeFile) (folder : String) :
    score_executable exe folder
      = score_positive exe folder - 100 * (negTokenCountName exe : Int) := by
  unfold negTokenCountName nameLowerOf
  simp only [score_executable, score_positive]
  rw [patternBonus_eq IGNORED_PATTERNS]
  ring

/-! ## Claim C9 — totality of the button query -/

/-- A Bluetooth-mode controller reporting only 13 buttons, every one of
which the hardware would report as held down. -/
def btJoystick13 : Joy :=
  ⟨0, 0, 0, 0, fun _ => 0, 13, fun _ => true, false⟩

/-- Claim C9: `_is_button_pressed` is total — an index at or beyond the
reported button count, or a failing hardware query, yields `False` rather
than an exception; in particular the Bluetooth touchpad index 13 on a
13-button device reads as not pressed. -/
theorem C9_button_query_total (j : Joy) (i : Nat)
    (h : j.numbuttons ≤ i ∨ j.fail = true) :
    is_button_pressed (some j) i = false ∧
    is_button_pressed (some btJoystick13) PS_BUTTON_TOUCHPAD_BT = false := by
  constructor
  · simp only [is_button_pressed]
    rcases h with h | h
    · split_ifs with hf hlt
      · rfl
      · omega
      · rfl
    · simp [h]
  · decide

/-- Claim C9 witness: the touchpad query on the 13-button device. -/
theorem C9_button_query_total_witness :
    is_button_pressed (some btJoystick13) 13 = false ∧
    is_button_pressed (some btJoystick13) PS_BUTTON_TOUCHPAD_BT = false :=
  C9_button_query_total btJoystick13 13 (Or.inl (by decide))

/-! ## Claim C10 — fresh press after `wait_for_release` -/

/-- Claim C10: after `wait_for_release` clears `_last_action` and
`_action_triggered`, the next poll that decodes any non-NONE action —
whatever was held before — takes the fresh-press branch: it is returned
immediately and the repeat clock restarts at the current time. -/
theorem C10_fresh_press_after_release (repeat_delay repeat_interval : Int)
    (s : RepeatState) (a : InputAction) (t : Int) (h : a ≠ InputAction.NONE) :
    get_input_step repeat_delay repeat_interval a t (wait_for_release_reset s)
      = (a, ⟨a, t, t, true⟩) := by
  simp [get_input_step, wait_for_release_reset, h]

/-- Claim C10 witness: UP was being held (and auto-repeating) before the
release; after the reset the very next poll of UP at t = 1000 fires
immediately. -/
theorem C10_fresh_press_after_release_witness :
    get_input_step 500 150 InputAction.UP 1000
        (wait_for_release_reset ⟨InputAction.UP, 100, 400, true⟩)
      = (InputAction.UP, ⟨InputAction.UP, 1000, 1000, true⟩) :=
  C10_fresh_press_after_release 500 150 ⟨InputAction.UP, 100, 400, true⟩
    InputAction.UP 1000 (by decide)

/-! ## Claim C6 — keyboard priority over the controller -/

/-- Keyboard state with only the Enter key (mapped to CONFIRM) down. -/
def kbConfirmOnly : Keys :=
  ⟨false, false, false, false, false, false, false, false,
   true, false, false, false, false, false, false⟩

/-- Keyboard state with no key down. -/
def kbAllUp : Keys :=
  ⟨false, false, false, false, false, false, false, false,
   false, false, false, false, false, false, false⟩

/-- A controller whose left stick is deflected fully left (an input the
router maps to LEFT when it consults the controller). -/
def joyLeftStick : Joy :=
  ⟨0, 0, 0, 2, fun i => if i = 0 then -1 else 0, 0, fun _ => false, false⟩

/-- The default USB handler configuration (deadzone 0.3, USB button ids). -/
def usbHandler : Handler :=
  ⟨3 / 10, PS_BUTTON_CROSS_USB, PS_BUTTON_CIRCLE_USB,
   PS_BUTTON_OPTIONS_USB, PS_BUTTON_TRIANGLE_USB⟩

/-- Claim C6: when any keyboard key mapped to any action is down, the raw
decode is independent of the controller (same result for any joystick
state, connection flag and button mapping); concretely, keyboard CONFIRM
beats a simultaneous controller-LEFT stick deflection — a deflection that,
alone, does decode to LEFT. -/
theorem C6_keyboard_priority (H₁ H₂ : Handler) (keys : Keys)
    (j₁ j₂ : Option Joy) (c₁ c₂ : Bool) (h : anyKeyDown keys = true) :
    read_raw_input H₁ keys j₁ c₁ = read_raw_input H₂ keys j₂ c₂ ∧
    read_raw_input usbHandler kbConfirmOnly (some joyLeftStick) true
      = InputAction.CONFIRM ∧
    read_raw_input usbHandler kbAllUp (some joyLeftStick) true
      = InputAction.LEFT := by
  refine ⟨?_, by norm_num [read_raw_input, kbConfirmOnly], ?_⟩
  · simp only [read_raw_input]
    split_ifs <;> simp_all [anyKeyDown]
  · norm_num [read_raw_input, joystickSection, controllerDecode, usbHandler, kbAllUp,
      joyLeftStick, is_button_pressed, PS_AXIS_LEFT_X, PS_AXIS_LEFT_Y]

/-- Claim C6 witness: keyboard CONFIRM with the left-deflected controller
attached decodes the same as with no controller at all — CONFIRM. -/
theorem C6_keyboard_priority_witness :
    read_raw_input usbHandler kbConfirmOnly (some joyLeftStick) true
      = read_raw_input usbHandler kbConfirmOnly none false ∧
    read_raw_input usbHandler kbConfirmOnly (some joyLeftStick) true
      = InputAction.CONFIRM ∧
    read_raw_input usbHandler kbAllUp (some joyLeftStick) true
      = InputAction.LEFT :=
  C6_keyboard_priority usbHandler usbHandler kbConfirmOnly
    (some joyLeftStick) none true false (by decide)

/-! ## Claim C5 — auto-repeat cadence of a held action -/

/-- One poll of a continuously held, already-triggered action from the
steady state `⟨a, 0, r, true⟩` (pressed at t = 0, last emission at `r`):
nothing is emitted before `t ≥ 500`; afterwards the action fires exactly
when at least 150 ms have passed since `r`, and firing moves `r` to `t`. -/
theorem get_input_step_held (a : InputAction) (h : a ≠ InputAction.NONE) (t r : Int) :
    get_input_step 500 150 a t ⟨a, 0, r, true⟩
      = if 500 ≤ t then
          (if 150 ≤ t - r then (a, ⟨a, 0, t, true⟩)
           else (InputAction.NONE, ⟨a, 0, r, true⟩))
        else (InputAction.NONE, ⟨a, 0, r, true⟩) := by
  simp only [get_input_step]
  rw [if_pos h, if_neg (by simp), if_neg (by simp)]
  norm_num [ge_iff_le]

/-- During polls 1..31 of a constant held action the state stays at
`⟨a, 0, 0, true⟩`: the initial press happened at t = 0 and the delay window
is still open. -/
theorem heldState_delay_window (a : InputAction) (h : a ≠ InputAction.NONE) :
    ∀ k, k ≤ 31 → heldState a (k + 1) = ⟨a, 0, 0, true⟩ := by
  intro k
  induction k with
  | zero =>
    intro _
    simp [heldState, initRepeatState, get_input_step, h]
  | succ n ih =>
    intro hn
    have hs : heldState a (n + 1) = ⟨a, 0, 0, true⟩ := ih (by omega)
    show (get_input_step 500 150 a (16 * ((n + 1 : Nat) : Int)) (heldState a (n + 1))).2 = _
    rw [hs, get_input_step_held a h]
    rw [if_neg (by omega)]

/-- From poll 33 on, the state of the held-action schedule records the last
emission at tick `16 * (k - 1 - (k - 33) % 10)` (512, 672, 832, …). -/
theorem heldState_repeat_phase (a : InputAction) (h : a ≠ InputAction.NONE) :
    ∀ k, 33 ≤ k →
      heldState a k = ⟨a, 0, ((16 * (k - 1 - (k - 33) % 10) : Nat) : Int), true⟩ := by
  intro k
  induction k with
  | zero => omega
  | succ n ih =>
    intro hn
    rcases Nat.lt_or_ge n 33 with hlt | hge
    · -- n + 1 = 33: poll 32 fires the first repeat at t = 512
      have hn32 : n = 32 := by omega
      subst hn32
      have hs : heldState a 32 = ⟨a, 0, 0, true⟩ := heldState_delay_window a h 31 (by omega)
      show (get_input_step 500 150 a (16 * ((32 : Nat) : Int)) (heldState a 32)).2 = _
      rw [hs, get_input_step_held a h]
      rw [if_pos (by omega), if_pos (by omega)]
      simp only [RepeatState.mk.injEq, and_true, true_and]
      omega
    · -- induction step from poll n ≥ 33
      have hs := ih hge
      show (get_input_step 500 150 a (16 * ((n : Nat) : Int)) (heldState a n)).2 = _
      rw [hs, get_input_step_held a h]
      rw [if_pos (by omega)]
      by_cases hrep :
          (150 : Int) ≤ 16 * ((n : Nat) : Int) - ((16 * (n - 1 - (n - 33) % 10) : Nat) : Int)
      · rw [if_pos hrep]
        simp only [RepeatState.mk.injEq, and_true, true_and]
        omega
      · rw [if_neg hrep]
        simp only [RepeatState.mk.injEq, and_true, true_and]
        omega

set_option maxRecDepth 4000 in
/-- Claim C5 counterexample: polling a held UP every 16 ms, the first poll
with t ≥ 650 is poll 41 (t = 656, since 16·40 = 640 < 650), and the router
emits NONE there — not the action the claim requires; the second repeat only
fires at t = 672 = 512 + 160. -/
theorem C5_counterexample :
    heldOut InputAction.UP 41 = InputAction.NONE ∧
    (650 : Int) ≤ 16 * 41 ∧ (16 * 40 : Int) < 650 ∧
    heldOut InputAction.UP 42 = InputAction.UP := by
  refine ⟨by decide, by decide, by decide, by decide⟩

/-- Claim C5 (amended): with `repeat_delay = 500`, `repeat_interval = 150`
and 16 ms polls of a constant non-NONE action, the router emits the action
at t = 0, NONE for 0 < t < 500, the first repeat at the first poll with
t ≥ 500 (t = 512), and from then on one emission at the first poll at least
`repeat_interval` after the *previous emission* — i.e. at t = 672, 832, …
(every 160 ms), not at the first poll with t ≥ 650. -/
theorem C5_amended_repeat_cadence (a : InputAction) (h : a ≠ InputAction.NONE) :
    heldOut a 0 = a ∧
    (∀ k, 1 ≤ k → k ≤ 31 → heldOut a k = InputAction.NONE) ∧
    (∀ k, 32 ≤ k →
      heldOut a k = if (k - 32) % 10 = 0 then a else InputAction.NONE) := by
  refine ⟨?_, ?_, ?_⟩
  · simp [heldOut, heldState, initRepeatState, get_input_step, h]
  · intro k h1 h31
    obtain ⟨n, rfl⟩ : ∃ n, k = n + 1 := ⟨k - 1, by omega⟩
    have hs : heldState a (n + 1) = ⟨a, 0, 0, true⟩ :=
      heldState_delay_window a h n (by omega)
    unfold heldOut
    rw [hs, get_input_step_held a h]
    rw [if_neg (by omega)]
  · intro k h32
    rcases Nat.eq_or_lt_of_le h32 with h32' | hgt
    · -- poll 32: the first repeat fires
      subst h32'
      have hs : heldState a 32 = ⟨a, 0, 0, true⟩ := heldState_delay_window a h 31 (by omega)
      unfold heldOut
      rw [hs, get_input_step_held a h]
      rw [if_pos (by omega), if_pos (by omega), if_pos (by omega)]
    · have h33 : 33 ≤ k := hgt
      have hs := heldState_repeat_phase a h k h33
      unfold heldOut
      rw [hs, get_input_step_held a h]
      rw [if_pos (by omega)]
      by_cases hmod : (k - 32) % 10 = 0
      · have hrep :
            (150 : Int) ≤ 16 * ((k : Nat) : Int) - ((16 * (k - 1 - (k - 33) % 10) : Nat) : Int) := by
          omega
        rw [if_pos hrep, if_pos hmod]
      · have hrep :
            ¬ (150 : Int) ≤ 16 * ((k : Nat) : Int) - ((16 * (k - 1 - (k - 33) % 10) : Nat) : Int) := by
          omega
        rw [if_neg hrep, if_neg hmod]

/-- Claim C5 amended, witness: the held-UP schedule at polls 0, 16, 32, 41
and 42. -/
theorem C5_amended_repeat_cadence_witness :
    heldOut InputAction.UP 0 = InputAction.UP ∧
    heldOut InputAction.UP 16 = InputAction.NONE ∧
    heldOut InputAction.UP 32 = InputAction.UP ∧
    heldOut InputAction.UP 41 = InputAction.NONE ∧
    heldOut InputAction.UP 42 = InputAction.UP := by
  obtain ⟨h0, hdelay, hrep⟩ := C5_amended_repeat_cadence InputAction.UP (by decide)
  refine ⟨h0, hdelay 16 (by omega) (by omega), ?_, ?_, ?_⟩
  · have h := hrep 32 (by omega)
    simpa using h
  · have h := hrep 41 (by omega)
    simpa using h
  · have h := hrep 42 (by omega)
    simpa using h

/-! ## Claim C4 — `load_cache` failure behaviour -/

/-- Claim C4 counterexample: an existing cache file that raises an I/O error
on open propagates `OSError` out of `load_cache` (the `except` tuple lists
only `JSONDecodeError, KeyError, TypeError`), and a structurally invalid
cache whose top level is a JSON array propagates `AttributeError` from
`data.get` — both contradict "never raises". -/
theorem C4_counterexample :
    load_cache ⟨fun s => s, fun _ => false, fun _ => none⟩ CacheFile.unreadable
      = .error .osErr ∧
    load_cache ⟨fun s => s, fun _ => false, fun _ => none⟩ (.parsed (.jarr []))
      = .error .attrErr :=
  ⟨rfl, rfl⟩

/-- Claim C4 (amended): `load_cache` returns the no-cache signal for an
absent file and for a file that is not valid JSON, and the three exception
types named in its `except` clause never escape; but an I/O error on
open/read (`OSError`) and an `AttributeError` from a non-object top level
do propagate to the caller. -/
theorem C4_amended_caught_exceptions_only (env : Env) (file : CacheFile) :
    load_cache env .absent = .ok none ∧
    load_cache env .malformed = .ok none ∧
    (match load_cache env file with
     | .error e => e = PyExc.osErr ∨ e = PyExc.attrErr
     | .ok _ => True) := by
  refine ⟨rfl, rfl, ?_⟩
  cases file with
  | absent => simp [load_cache]
  | unreadable => simp [load_cache]
  | malformed => simp [load_cache]
  | parsed v =>
    cases v with
    | jobj kvs =>
      simp only [load_cache]
      cases hres : iterElems ((kvs.lookup "games").getD (.jarr [])) >>=
          (fun elems => elems.mapM (from_dict env)) with
      | ok gs => simp [hres]
      | error e => cases e <;> simp [hres]
    | jnull => simp [load_cache]
    | jbool b => simp [load_cache]
    | jnum n => simp [load_cache]
    | jstr s => simp [load_cache]
    | jarr xs => simp [load_cache]

/-! ## Claim C8 — forward tolerance of cache entries -/

/-- Claim C8 counterexample: a cache whose single game entry carries the
unknown extra field `bogus` is *not* loaded with the field ignored —
`Game(**data)` raises `TypeError`, the catch turns it into `return False`,
and the whole cache is treated as invalid. -/
theorem C8_counterexample :
    load_cache ⟨fun s => s, fun _ => false, fun _ => none⟩
      (.parsed (.jobj [("games",
        .jarr [.jobj [("name", .jstr "A"), ("path", .jstr "/g/a.exe"),
                      ("bogus", .jnull)]])]))
      = .ok none :=
  rfl

/-- Claim C8 (amended): an entry with an unknown extra field makes
`from_dict` raise `TypeError` and the whole `load_cache` return the
no-cache signal (nothing is ignored or kept); an entry missing the optional
fields does get the documented dataclass defaults (empty `folder_source`,
no timestamps, `play_count` 0, `is_shortcut` False, recomputed
`hash_id`). -/
theorem C8_amended_unknown_field_rejected (env : Env)
    (kvs : List (String × JVal)) (nm pth : String)
    (hbad : kvs.any (fun kv => !GAME_FIELDS.contains kv.1) = true)
    (hfs : ∀ q, env.path_exists q = false) :
    from_dict env (.jobj kvs) = .error .typeErr ∧
    load_cache env (.parsed (.jobj [("games", .jarr [.jobj kvs])])) = .ok none ∧
    from_dict env (.jobj [("name", .jstr nm), ("path", .jstr pth)]) =
      .ok { name := .jstr nm, path := .jstr pth, icon_path := .jnull,
            poster_path := .jnull, background_path := .jnull,
            folder_source := .jstr "", last_played := .jnull,
            play_count := .jnum 0, is_shortcut := .jbool false,
            hash_id := .jstr (env.md5_12 pth) } := by
  have h1 : from_dict env (.jobj kvs) = .error .typeErr := by
    simp only [from_dict]
    rw [if_pos hbad]
    rfl
  refine ⟨h1, ?_, ?_⟩
  · simp [load_cache, iterElems, List.mapM.loop, bind, Except.bind, h1]
  · simp only [from_dict]
    rw [if_neg (by simp [GAME_FIELDS]), if_neg (by simp)]
    by_cases hp : pth = ""
    · simp [post_init_j, truthy, hp, List.lookup]
      rfl
    · simp [post_init_j, truthy, hp, detect_images_j, hfs, List.lookup]
      rfl

/-- Claim C8 amended, witness: the rejected `bogus` entry and the minimal
`name`/`path` entry with every default substituted. -/
theorem C8_amended_unknown_field_rejected_witness :
    from_dict ⟨fun s => s, fun _ => false, fun _ => none⟩
      (.jobj [("bogus", .jnull)]) = .error .typeErr ∧
    load_cache ⟨fun s => s, fun _ => false, fun _ => none⟩
      (.parsed (.jobj [("games", .jarr [.jobj [("bogus", .jnull)]])])) = .ok none ∧
    from_dict ⟨fun s => s, fun _ => false, fun _ => none⟩
      (.jobj [("name", .jstr "A"), ("path", .jstr "/g/a.exe")]) =
      .ok { name := .jstr "A", path := .jstr "/g/a.exe", icon_path := .jnull,
            poster_path := .jnull, background_path := .jnull,
            folder_source := .jstr "", last_played := .jnull,
            play_count := .jnum 0, is_shortcut := .jbool false,
            hash_id := .jstr "/g/a.exe" } :=
  C8_amended_unknown_field_rejected ⟨fun s => s, fun _ => false, fun _ => none⟩
    [("bogus", .jnull)] "A" "/g/a.exe" (by decide) (fun _ => rfl)

/-! ## Claim C2 — no duplicate executable paths in one scan -/

/-- The path of a created game entry is the executable path it was created
from. -/
theorem create_game_entry_path (env : Env) (p src : String)
    (fn : Option String) (sc : Bool) :
    (create_game_entry env p src fn sc).path = p := rfl

/-- Invariant threading `found_paths` through a scan phase: the claimed set
only grows, every emitted game's path is newly claimed (present afterwards,
absent before), and the emitted paths are pairwise distinct. -/
def ScanInv (found found' : List String) (gs : List GameRec) : Prop :=
  (∀ p, p ∈ found → p ∈ found') ∧
  (∀ g, g ∈ gs → g.path ∈ found' ∧ g.path ∉ found) ∧
  (gs.map (fun g => g.path)).Nodup

/-- A phase that starts from a larger claimed set also satisfies the
invariant against a smaller earlier set. -/
theorem ScanInv.weaken {found mid found' : List String} {gs : List GameRec}
    (hmono : ∀ p, p ∈ found → p ∈ mid) (inv : ScanInv mid found' gs) :
    ScanInv found found' gs := by
  obtain ⟨m, c, n⟩ := inv
  exact ⟨fun p hp => m p (hmono p hp),
         fun g hg => ⟨(c g hg).1, fun hc => (c g hg).2 (hmono _ hc)⟩, n⟩

/-- Prepending a game whose path was claimed in `mid` (but not yet in
`found`) before running the rest of the phase from `mid`. -/
theorem ScanInv.cons_mid {found mid found' : List String} {gs : List GameRec}
    (g : GameRec) (hmono : ∀ p, p ∈ found → p ∈ mid)
    (hin : g.path ∈ mid) (hout : g.path ∉ found)
    (inv : ScanInv mid found' gs) :
    ScanInv found found' (g :: gs) := by
  obtain ⟨m, c, n⟩ := inv
  refine ⟨fun p hp => m p (hmono p hp), ?_, ?_⟩
  · intro g' hg'
    rcases List.mem_cons.1 hg' with rfl | hg'
    · exact ⟨m _ hin, hout⟩
    · exact ⟨(c g' hg').1, fun hc => (c g' hg').2 (hmono _ hc)⟩
  · simp only [List.map_cons, List.nodup_cons]
    refine ⟨?_, n⟩
    intro hmm
    obtain ⟨g', hg', he⟩ := List.mem_map.1 hmm
    exact (c g' hg').2 (by rw [he]; exact hin)

/-- Composing two consecutive phases preserves the invariant. -/
theorem ScanInv.append {f₀ f₁ f₂ : List String} {g₁ g₂ : List GameRec}
    (h₁ : ScanInv f₀ f₁ g₁) (h₂ : ScanInv f₁ f₂ g₂) :
    ScanInv f₀ f₂ (g₁ ++ g₂) := by
  obtain ⟨m₁, c₁, n₁⟩ := h₁
  obtain ⟨m₂, c₂, n₂⟩ := h₂
  refine ⟨fun p hp => m₂ p (m₁ p hp), ?_, ?_⟩
  · intro g hg
    rcases List.mem_append.1 hg with hg | hg
    · exact ⟨m₂ _ (c₁ g hg).1, (c₁ g hg).2⟩
    · exact ⟨(c₂ g hg).1, fun hmem => (c₂ g hg).2 (m₁ _ hmem)⟩
  · rw [List.map_append, List.nodup_append]
    refine ⟨n₁, n₂, ?_⟩
    intro p hp₁ hp₂
    obtain ⟨g, hg, rfl⟩ := List.mem_map.1 hp₁
    obtain ⟨g', hg', he⟩ := List.mem_map.1 hp₂
    exact (c₂ g' hg').2 (by rw [he]; exact (c₁ g hg).1)

/-- The shortcut phase satisfies the scan invariant. -/
theorem scan_lnks_inv (env : Env) (folder : String) :
    ∀ (lnks : List (Option String)) (found : List String),
      ScanInv found (scan_lnks env folder lnks found).2
        (scan_lnks env folder lnks found).1 := by
  intro lnks
  induction lnks with
  | nil =>
    intro found
    exact ⟨fun _ h => h, by simp [scan_lnks], by simp [scan_lnks]⟩
  | cons t rest ih =>
    intro found
    cases t with
    | none => simpa only [scan_lnks] using ih found
    | some target =>
      simp only [scan_lnks]
      split_ifs with h1 h2
      · have hnew : target ∉ found := by
          simp only [Bool.and_eq_true, Bool.not_eq_true', decide_eq_false_iff_not] at h1
          exact h1.2
        exact ScanInv.cons_mid _ (fun p hp => List.mem_cons_of_mem _ hp)
          (List.mem_cons_self _ _) hnew (ih (target :: found))
      · exact ih found
      · exact ih found

/-- `_find_game_in_folder` claims at most one fresh path. -/
theorem find_game_in_folder_inv (env : Env) (sub : SubdirFS) (src : String)
    (found : List String) :
    (∀ p, p ∈ found → p ∈ (find_game_in_folder env sub src found).2) ∧
    (∀ g, (find_game_in_folder env sub src found).1 = some g →
      g.path ∈ (find_game_in_folder env sub src found).2 ∧ g.path ∉ found) := by
  simp only [find_game_in_folder]
  split_ifs with hperm
  · exact ⟨fun _ h => h, by simp⟩
  · split
    · exact ⟨fun _ h => h, by simp⟩
    · split_ifs with hmem
      · exact ⟨fun _ h => h, by simp⟩
      · refine ⟨fun p hp => List.mem_cons_of_mem _ hp, ?_⟩
        intro g hg
        simp only [Option.some.injEq] at hg
        subst hg
        exact ⟨List.mem_cons_self _ _, hmem⟩

/-- The subdirectory phase satisfies the scan invariant. -/
theorem scan_subdirs_inv (env : Env) (src : String) :
    ∀ (subs : List SubdirFS) (found : List String),
      ScanInv found (scan_subdirs env src subs found).2
        (scan_subdirs env src subs found).1 := by
  intro subs
  induction subs with
  | nil =>
    intro found
    exact ⟨fun _ h => h, by simp [scan_subdirs], by simp [scan_subdirs]⟩
  | cons sub rest ih =>
    intro found
    simp only [scan_subdirs]
    split_ifs with hdot
    · exact ih found
    · obtain ⟨hmono, hclaim⟩ := find_game_in_folder_inv env sub src found
      cases hr : (find_game_in_folder env sub src found).1 with
      | none =>
        exact ScanInv.weaken hmono (ih (find_game_in_folder env sub src found).2)
      | some g =>
        obtain ⟨hin, hout⟩ := hclaim g hr
        exact ScanInv.cons_mid g hmono hin hout
          (ih (find_game_in_folder env sub src found).2)

/-- The loose-executable phase satisfies the scan invariant. -/
theorem scan_loose_inv (env : Env) (folder : String) :
    ∀ (names : List String) (found : List String),
      ScanInv found (scan_loose env folder names found).2
        (scan_loose env folder names found).1 := by
  intro names
  induction names with
  | nil =>
    intro found
    exact ⟨fun _ h => h, by simp [scan_loose], by simp [scan_loose]⟩
  | cons name rest ih =>
    intro found
    simp only [scan_loose]
    split_ifs with h1
    · have hnew : joinPath folder name ∉ found := by
        simp only [Bool.and_eq_true, Bool.not_eq_true', decide_eq_false_iff_not] at h1
        exact h1.1
      exact ScanInv.cons_mid _ (fun p hp => List.mem_cons_of_mem _ hp)
        (List.mem_cons_self _ _) hnew (ih (joinPath folder name :: found))
    · exact ih found

/-- One root folder's scan satisfies the invariant. -/
theorem scan_folder_inv (env : Env) (root : RootFS) (found : List String) :
    ScanInv found (scan_folder env root found).2 (scan_folder env root found).1 := by
  simp only [scan_folder]
  rw [List.append_assoc]
  exact (scan_lnks_inv env root.path root.lnkTargets found).append
    ((scan_subdirs_inv env root.path root.subdirs _).append
      (scan_loose_inv env root.path root.loose _))

/-- The whole folder loop emits pairwise-distinct paths. -/
theorem scan_games_go_inv (env : Env) :
    ∀ (roots : List RootFS) (found : List String),
      ∃ found', ScanInv found found' (scan_games_go env roots found) := by
  intro roots
  induction roots with
  | nil =>
    intro found
    exact ⟨found, fun _ h => h, by simp [scan_games_go], by simp [scan_games_go]⟩
  | cons root rest ih =>
    intro found
    simp only [scan_games_go]
    split_ifs with hex
    · obtain ⟨f₂, h₂⟩ := ih (scan_folder env root found).2
      exact ⟨f₂, (scan_folder_inv env root found).append h₂⟩
    · exact ih found

/-- `insertLe` permutes the inserted element into the list. -/
theorem insertLe_perm {α : Type} (le : α → α → Bool) (a : α) (l : List α) :
    (insertLe le a l).Perm (a :: l) := by
  induction l with
  | nil => exact List.Perm.refl _
  | cons b t ih =>
    simp only [insertLe]
    split_ifs with h
    · exact List.Perm.refl _
    · exact (ih.cons b).trans (List.Perm.swap a b t)

/-- `stableSort` is a permutation. -/
theorem stableSort_perm {α : Type} (le : α → α → Bool) (l : List α) :
    (stableSort le l).Perm l := by
  induction l with
  | nil => exact List.Perm.refl _
  | cons a t ih =>
    exact (insertLe_perm le a (stableSort le t)).trans (ih.cons a)

/-- `_sort_games` only permutes the record list. -/
theorem sort_games_perm (sorting : String) (games : List GameRec) :
    (sort_games sorting games).Perm games := by
  unfold sort_games
  split_ifs <;> first | exact stableSort_perm _ _ | exact List.Perm.refl _

/-- Claim C2: within one scan, no two emitted `GameRec`s share an
executable path — every emission point checks `found_paths` first and
claims the path, across shortcut resolution, subdirectory winners, loose
executables, and all root folders. -/
theorem C2_scan_has_no_duplicate_paths (env : Env) (sorting : String)
    (roots : List RootFS) :
    ((scan_games env sorting roots).map (fun g => g.path)).Nodup := by
  obtain ⟨f', hinv⟩ := scan_games_go_inv env roots []
  have hperm := sort_games_perm sorting (scan_games_go env roots [])
  exact ((hperm.map (fun g => g.path)).nodup_iff).2 hinv.2.2
